import Mathlib

/-!
Verification of the live traffic ingestion and flow-feature pipeline of the
multivector_ml_ids repository: flow-key resolution, flow-table accumulation,
timeout-based flow completion, feature extraction and the prediction path.
All definitions are shallow embeddings of the corresponding Python code
(src/capture/live_capture.py, src/capture/pcap_parser.py,
src/inference/feature_extractor.py, src/inference/predictor.py,
src/api/services/live_detection_service.py, config/config.py).
-/

set_option maxRecDepth 8192

namespace MVIds

/-- An address is the dotted-quad string scapy exposes, represented by its
character list (Python compares such strings lexicographically by code
point, which is exactly the lexicographic order on the character list). -/
abbrev Addr := List Char

/-- A parsed packet as the capture code observes it: the layer predicates
mirror scapy's `haslayer` checks, addresses are the dotted-quad strings
scapy exposes, and `time`/`len` are the packet timestamp and total length
used by the feature extractor. -/
structure Packet where
  hasIP : Bool
  ipSrc : Addr
  ipDst : Addr
  proto : Nat
  hasTCP : Bool
  hasUDP : Bool
  tcpSport : Nat
  tcpDport : Nat
  udpSport : Nat
  udpDport : Nat
  time : ℚ
  len : Nat
  deriving DecidableEq, Repr

/-- The bidirectional 5-tuple flow key `(src_ip, dst_ip, src_port, dst_port,
protocol)` returned by `_extract_flow_key`. -/
structure FlowKey where
  ipA : Addr
  ipB : Addr
  portA : Nat
  portB : Nat
  protocol : Nat
  deriving DecidableEq, Repr

/-- Source port as `_extract_flow_key` computes it: TCP sport, else UDP
sport, else 0. -/
def src_port (p : Packet) : Nat :=
  if p.hasTCP then p.tcpSport else if p.hasUDP then p.udpSport else 0

/-- Destination port as `_extract_flow_key` computes it. -/
def dst_port (p : Packet) : Nat :=
  if p.hasTCP then p.tcpDport else if p.hasUDP then p.udpDport else 0

/-- Python's `<` on strings: lexicographic comparison by code point. -/
def strLt : Addr → Addr → Prop
  | [], [] => False
  | [], _ :: _ => True
  | _ :: _, [] => False
  | a :: as, b :: bs => a < b ∨ (a = b ∧ strLt as bs)

instance strLtDecidable : (a b : Addr) → Decidable (strLt a b)
  | [], [] => isFalse fun h => h
  | [], _ :: _ => isTrue trivial
  | _ :: _, [] => isFalse fun h => h
  | _ :: as, _ :: bs =>
    have : Decidable (strLt as bs) := strLtDecidable as bs
    inferInstanceAs (Decidable (_ ∨ _))

/-- Python's lexicographic comparison `(src_ip, src_port) < (dst_ip, dst_port)`
on a (string address, numeric port) pair. -/
def pairLt (a b : Addr × Nat) : Prop :=
  strLt a.1 b.1 ∨ (a.1 = b.1 ∧ a.2 < b.2)

instance (a b : Addr × Nat) : Decidable (pairLt a b) := by
  unfold pairLt; infer_instance

/-- Non-strict version of `pairLt`. -/
def pairLe (a b : Addr × Nat) : Prop :=
  pairLt a b ∨ a = b

/-- `LiveCapture._extract_flow_key` / `PcapParser._extract_flow_key`
(both are textually identical): `None` for non-IP packets, otherwise the
5-tuple with the lexicographically smaller (address, port) pair first. -/
def extract_flow_key (p : Packet) : Option FlowKey :=
  if p.hasIP then
    if pairLt (p.ipSrc, src_port p) (p.ipDst, dst_port p) then
      some ⟨p.ipSrc, p.ipDst, src_port p, dst_port p, p.proto⟩
    else
      some ⟨p.ipDst, p.ipSrc, dst_port p, src_port p, p.proto⟩
  else
    none

/-- `PACKET_BUFFER_SIZE` from config/config.py. -/
def PACKET_BUFFER_SIZE : Nat := 1000

/-- `FLOW_TIMEOUT` from config/config.py (seconds). -/
def FLOW_TIMEOUT : ℚ := 2

/-- The `maxlen` of the `flows_ready` deque in `LiveCapture.__init__`. -/
def FLOWS_READY_MAXLEN : Nat := 1000

/-- An entry of `LiveCapture.flow_table`: the defaultdict value
`{'packets': [], 'start_time': None, 'last_seen': None}`. -/
structure FlowState where
  packets : List Packet
  start_time : Option ℚ
  last_seen : Option ℚ
  deriving DecidableEq, Repr

/-- An entry of the `flows_ready` deque, as built by
`LiveCapture._flow_timeout_checker`. -/
structure CompletedFlow where
  flow_key : FlowKey
  packets : List Packet
  start_time : Option ℚ
  end_time : ℚ
  deriving DecidableEq, Repr

/-- The mutable state of a `LiveCapture` object (the fields the modelled
methods touch). -/
structure CaptureState where
  is_capturing : Bool
  packet_queue : List Packet
  flow_table : List (FlowKey × FlowState)
  flows_ready : List CompletedFlow
  total_packets_captured : Nat
  deriving DecidableEq, Repr

/-- The state of a freshly constructed `LiveCapture`. -/
def emptyCaptureState : CaptureState :=
  { is_capturing := false
    packet_queue := []
    flow_table := []
    flows_ready := []
    total_packets_captured := 0 }

/-- Dictionary lookup in the flow table (keys are unique in a Python dict;
the table is represented as an association list). -/
def lookupFlow (k : FlowKey) : List (FlowKey × FlowState) → Option FlowState
  | [] => none
  | (k2, fs) :: rest => if k2 = k then some fs else lookupFlow k rest

/-- Dictionary update `flow_table[key] = fs`: replaces the entry for `k` if
present, otherwise appends it (Python dicts keep insertion order). -/
def insertFlow (k : FlowKey) (fs : FlowState) :
    List (FlowKey × FlowState) → List (FlowKey × FlowState)
  | [] => [(k, fs)]
  | (k2, v) :: rest =>
    if k2 = k then (k, fs) :: rest else (k2, v) :: insertFlow k fs rest

/-- One iteration of the body of `LiveCapture._process_packets` for a
dequeued packet: resolve the flow key (skip the packet when `None`), create
the defaultdict entry if absent, set `start_time` on first packet, bump
`last_seen` and append the packet. `now` is the value of `time.time()`. -/
def process_packet (now : ℚ) (pkt : Packet) (s : CaptureState) : CaptureState :=
  match extract_flow_key pkt with
  | none => s
  | some key =>
    let fs0 := (lookupFlow key s.flow_table).getD ⟨[], none, none⟩
    let fs1 : FlowState :=
      { packets := fs0.packets ++ [pkt]
        start_time := some (fs0.start_time.getD now)
        last_seen := some now }
    { s with flow_table := insertFlow key fs1 s.flow_table }

/-- `LiveCapture._packet_callback`: enqueue the packet and count it only
when the bounded queue is not full; otherwise do nothing at all. -/
def packet_callback (pkt : Packet) (s : CaptureState) : CaptureState :=
  if s.packet_queue.length < PACKET_BUFFER_SIZE then
    { s with
      packet_queue := s.packet_queue ++ [pkt]
      total_packets_captured := s.total_packets_captured + 1 }
  else
    s

/-- The timeout test of `_flow_timeout_checker`:
`last_seen is not None and now - last_seen > FLOW_TIMEOUT`. -/
def flow_timed_out (now : ℚ) (fs : FlowState) : Bool :=
  match fs.last_seen with
  | none => false
  | some l => decide (now - l > FLOW_TIMEOUT)

/-- The dictionary appended to `flows_ready` for a timed-out flow:
`{'flow_key': k, 'packets': copy, 'start_time': ..., 'end_time': last_seen}`
(`last_seen` is non-`None` for every timed-out flow). -/
def completeFlow (k : FlowKey) (fs : FlowState) : CompletedFlow :=
  { flow_key := k
    packets := fs.packets
    start_time := fs.start_time
    end_time := fs.last_seen.getD 0 }

/-- The completed flows one sweep of `_flow_timeout_checker` produces, in
table order. -/
def sweep_completed (now : ℚ) (table : List (FlowKey × FlowState)) :
    List CompletedFlow :=
  (table.filter (fun kf => flow_timed_out now kf.2)).map
    (fun kf => completeFlow kf.1 kf.2)

/-- `collections.deque(maxlen=m).append`: when the deque is full the
element at the opposite end is silently discarded. -/
def dequeAppend (maxlen : Nat) (q : List CompletedFlow) (c : CompletedFlow) :
    List CompletedFlow :=
  if q.length < maxlen then q ++ [c] else q.tail ++ [c]

/-- One sweep of `LiveCapture._flow_timeout_checker`: every flow whose idle
time exceeds `FLOW_TIMEOUT` is appended to the bounded `flows_ready` deque
and deleted from the flow table. -/
def flow_timeout_sweep (now : ℚ) (s : CaptureState) : CaptureState :=
  { s with
    flow_table := s.flow_table.filter (fun kf => ! flow_timed_out now kf.2)
    flows_ready :=
      (sweep_completed now s.flow_table).foldl
        (dequeAppend FLOWS_READY_MAXLEN) s.flows_ready }

/-- One iteration of the `_flow_timeout_checker` loop: the loop condition is
`while self.is_capturing`, so nothing happens once capture has stopped. -/
def reaper_iteration (now : ℚ) (s : CaptureState) : CaptureState :=
  if s.is_capturing then flow_timeout_sweep now s else s

/-- `LiveCapture.stop_capture`: clears `is_capturing` and joins the capture
thread; it touches neither the flow table nor the ready queue. -/
def stop_capture (s : CaptureState) : CaptureState :=
  if s.is_capturing then { s with is_capturing := false } else s

/-- States of a `LiveCapture` object reachable from a fresh object through
packet recording and reaper sweeps. The index is an upper bound for the
wall-clock times used so far: successive `time.time()` readings are
non-decreasing. -/
inductive Reach : ℚ → CaptureState → Prop where
  | start (t : ℚ) : Reach t emptyCaptureState
  | record {t : ℚ} {s : CaptureState} (t2 : ℚ) (pkt : Packet)
      (h : Reach t s) (hle : t ≤ t2) : Reach t2 (process_packet t2 pkt s)
  | sweep {t : ℚ} {s : CaptureState} (t2 : ℚ)
      (h : Reach t s) (hle : t ≤ t2) : Reach t2 (flow_timeout_sweep t2 s)

/-- The fields of the feature dictionary built by
`FlowFeatureExtractor.extract_features_from_flow` that the verified
properties mention (counts, duration, rate and quotient fields; the
remaining statistics fields of the dictionary do not feed back into these
and are left out of the model). `down_up_quot` models the backward/forward
byte quotient feature of the source. -/
structure Features where
  flow_duration : ℚ
  total_fwd_packets : Nat
  total_bwd_packets : Nat
  total_length_fwd_packets : Nat
  total_length_bwd_packets : Nat
  flow_bytes_per_sec : ℚ
  flow_packets_per_sec : ℚ
  fwd_packets_per_sec : ℚ
  bwd_packets_per_sec : ℚ
  down_up_quot : ℚ
  deriving DecidableEq, Repr

/-- `FlowFeatureExtractor._separate_directions`: the first packet's source
address defines the forward direction; a non-IP first packet sends
everything forward; non-IP packets otherwise belong to neither direction. -/
def separate_directions (packets : List Packet) : List Packet × List Packet :=
  match packets with
  | [] => ([], [])
  | first :: _ =>
    if first.hasIP = false then (packets, [])
    else
      (packets.filter (fun p => p.hasIP && (p.ipSrc == first.ipSrc)),
       packets.filter (fun p => p.hasIP && !(p.ipSrc == first.ipSrc)))

/-- The `duration` local of `extract_features_from_flow`:
`flow_data['end_time'] - flow_data['start_time'] if flow_data['start_time']
else 0` — note the Python truthiness test, under which a `start_time` of
`0.0` selects the `else 0` branch exactly like `None` does. -/
def durationOf (start_time : Option ℚ) (end_time : ℚ) : ℚ :=
  match start_time with
  | none => 0
  | some s => if s = 0 then 0 else end_time - s

/-- `FlowFeatureExtractor.extract_features_from_flow` restricted to the
modelled fields: `None` for an empty packet list, otherwise per-direction
counts and sums, duration in microseconds, the rate fields guarded by
`duration > 0`, and the byte quotient guarded by forward bytes `> 0`. -/
def extract_features_from_flow (fd : CompletedFlow) : Option Features :=
  if fd.packets = [] then none
  else
    let dirs := separate_directions fd.packets
    let fwd := dirs.1
    let bwd := dirs.2
    let duration := durationOf fd.start_time fd.end_time
    let total_fwd_len := (fwd.map Packet.len).sum
    let total_bwd_len := (bwd.map Packet.len).sum
    some
      { flow_duration := duration * 1000000
        total_fwd_packets := fwd.length
        total_bwd_packets := bwd.length
        total_length_fwd_packets := total_fwd_len
        total_length_bwd_packets := total_bwd_len
        flow_bytes_per_sec :=
          if duration > 0 then ((total_fwd_len + total_bwd_len : Nat) : ℚ) / duration
          else 0
        flow_packets_per_sec :=
          if duration > 0 then (fd.packets.length : ℚ) / duration else 0
        fwd_packets_per_sec :=
          if duration > 0 then (fwd.length : ℚ) / duration else 0
        bwd_packets_per_sec :=
          if duration > 0 then (bwd.length : ℚ) / duration else 0
        down_up_quot :=
          if 0 < total_fwd_len then (total_bwd_len : ℚ) / (total_fwd_len : ℚ)
          else 0 }

/-- The prediction-result dictionary of `Predictor.predict_flow`. The
error-path dictionary carries `attack_type = "Error"`, `confidence = 0`, an
`error` message, and none of the class fields. -/
structure DetResult where
  result_key : Option FlowKey
  attack_type : String
  attack_class_id : Option Nat
  confidence : ℚ
  error : Option String
  is_attack : Option Bool
  deriving DecidableEq, Repr

/-- `Predictor.class_names`: the reverse of `ATTACK_CLASSES` from
config/config.py, with the `"Unknown"` default of `dict.get`. -/
def class_names (n : Nat) : String :=
  if n = 0 then "Benign"
  else if n = 1 then "DDoS"
  else if n = 2 then "Brute Force"
  else if n = 3 then "Web Attack"
  else "Unknown"

/-- The padding loop of `Predictor.predict_flow`: every expected feature
absent from the DataFrame's columns is added as a zero column. -/
def padColumns (expected : List String) (cols : List (String × ℚ)) :
    List (String × ℚ) :=
  expected.foldl
    (fun acc f => if (acc.lookup f).isSome then acc else acc ++ [(f, 0)]) cols

/-- The reordering step `features_df = features_df[expected_features]`:
select the columns in schema order (`none` marks a column pandas would
fail on; after padding this cannot occur). -/
def reorderColumns (expected : List String) (cols : List (String × ℚ)) :
    List (Option ℚ) :=
  expected.map (fun f => cols.lookup f)

/-- The column selection of `predict_flow`: when the scaler exposes
`feature_names_in_` the columns are padded and reordered to that schema,
otherwise the DataFrame keeps the insertion order of the feature dict. -/
def columnsFor (schema : Option (List String)) (cols : List (String × ℚ)) :
    List (Option ℚ) :=
  match schema with
  | some expected => reorderColumns expected (padColumns expected cols)
  | none => cols.map (fun nv => some nv.2)

/-- The loaded artifacts of a `Predictor`: `feature_names_in` models
`scaler.feature_names_in_` (absent when the scaler lacks the attribute) and
`classify` abstracts the `scaler.transform`/`pca.transform`/
`model.predict`/`model.predict_proba` chain, returning the predicted class
and the probability row, or the message of the exception it raises. -/
structure PredictorState where
  is_loaded : Bool
  feature_names_in : Option (List String)
  classify : List ℚ → Except String (Nat × List ℚ)

/-- The value the `try` block of `Predictor.predict_flow` produces for a
given outcome of the classifier chain: the error-tagged dictionary of the
`except` clause when the chain raises, or when the probability row is too
short for `probabilities[prediction]`; the prediction dictionary
otherwise. -/
def prediction_result (fk : Option FlowKey)
    (outcome : Except String (Nat × List ℚ)) : DetResult :=
  match outcome with
  | Except.error e =>
    { result_key := fk, attack_type := "Error", attack_class_id := none
      confidence := 0, error := some e, is_attack := none }
  | Except.ok (pred, probs) =>
    match probs.get? pred with
    | none =>
      { result_key := fk, attack_type := "Error", attack_class_id := none
        confidence := 0, error := some "index out of range"
        is_attack := none }
    | some conf =>
      { result_key := fk
        attack_type := class_names pred
        attack_class_id := some pred
        confidence := conf
        error := none
        is_attack := some (!(class_names pred == "Benign")) }

/-- `Predictor.predict_flow`. The `is_loaded` guard sits before the
`try` block, so it raises (`Except.error`); every failure inside the
`try` is caught there and returned as the error-tagged result dictionary
of `prediction_result`. -/
def predict_flow (st : PredictorState) (flow_features : List (String × ℚ))
    (fk : Option FlowKey) : Except String DetResult :=
  if st.is_loaded = false then
    Except.error "Model not loaded. Call load_model_and_transformers() first."
  else
    Except.ok (prediction_result fk
      (st.classify ((columnsFor st.feature_names_in flow_features).map
        (fun x => x.getD 0))))

/-- The modelled feature fields in the insertion order the feature dict
gives them (the DataFrame column order predict_flow starts from). -/
def feature_columns (f : Features) : List (String × ℚ) :=
  [("flow_duration", f.flow_duration),
   ("total_fwd_packets", (f.total_fwd_packets : ℚ)),
   ("total_bwd_packets", (f.total_bwd_packets : ℚ)),
   ("total_length_fwd_packets", (f.total_length_fwd_packets : ℚ)),
   ("total_length_bwd_packets", (f.total_length_bwd_packets : ℚ)),
   ("flow_bytes_per_sec", f.flow_bytes_per_sec),
   ("flow_packets_per_sec", f.flow_packets_per_sec),
   ("fwd_packets_per_sec", f.fwd_packets_per_sec),
   ("bwd_packets_per_sec", f.bwd_packets_per_sec),
   ("down_up_ratio", f.down_up_quot)]

/-- One drained batch of `LiveDetectionService._prediction_worker`: each
flow is processed inside its own `try`/`except`, so an extraction `None`
or a raised exception skips only that flow and the loop moves on. -/
def prediction_worker_batch (st : PredictorState) (flows : List CompletedFlow) :
    List DetResult :=
  flows.filterMap (fun fd =>
    match extract_features_from_flow fd with
    | none => none
    | some feats =>
      match predict_flow st (feature_columns feats) (some fd.flow_key) with
      | Except.ok r => some r
      | Except.error _ => none)

/-- A concrete TCP packet from 10.0.0.1:1000 to 10.0.0.2:80. -/
def pkt1 : Packet :=
  ⟨true, "10.0.0.1".toList, "10.0.0.2".toList, 6, true, false,
    1000, 80, 0, 0, 0, 100⟩

/-- The flow key `pkt1` resolves to. -/
def key1 : FlowKey :=
  ⟨"10.0.0.1".toList, "10.0.0.2".toList, 1000, 80, 6⟩

/-- A flow state whose single packet was last seen at time 0. -/
def fsIdle : FlowState := ⟨[pkt1], some 0, some 0⟩

/-- A capture state holding one active flow. -/
def capIdle : CaptureState :=
  { is_capturing := true
    packet_queue := []
    flow_table := [(key1, fsIdle)]
    flows_ready := []
    total_packets_captured := 1 }

/-- A completed flow sitting at the front of the ready queue. -/
def c0 : CompletedFlow :=
  ⟨⟨"10.0.0.3".toList, "10.0.0.4".toList, 10, 20, 6⟩, [], some 0, 1⟩

/-- A different completed flow filling the rest of the ready queue. -/
def c1v : CompletedFlow :=
  ⟨⟨"10.0.0.3".toList, "10.0.0.4".toList, 11, 21, 6⟩, [], some 0, 1⟩

/-- A capture state whose ready queue is full (1000 entries) while one
active flow has been idle since time 0. -/
def cs3 : CaptureState :=
  { is_capturing := true
    packet_queue := []
    flow_table := [(key1, fsIdle)]
    flows_ready := c0 :: List.replicate 999 c1v
    total_packets_captured := 7 }

/-- A capture state whose packet queue is full (1000 entries). -/
def csFull : CaptureState :=
  { is_capturing := true
    packet_queue := List.replicate 1000 pkt1
    flow_table := []
    flows_ready := []
    total_packets_captured := 1000 }

/-- The packets of the end-to-end scenario: three packets from
10.0.0.1:1000 to 10.0.0.2:80 over TCP at times 0, 0.1 and 0.3 seconds with
lengths 100, 60 and 40. -/
def scenPkt (t : ℚ) (n : Nat) : Packet :=
  ⟨true, "10.0.0.1".toList, "10.0.0.2".toList, 6, true, false,
    1000, 80, 0, 0, t, n⟩

/-- The completed flow of the end-to-end scenario: `start_time = 0.0`,
`end_time = 0.3`. -/
def scenFlow : CompletedFlow :=
  { flow_key := key1
    packets := [scenPkt 0 100, scenPkt (1/10) 60, scenPkt (3/10) 40]
    start_time := some 0
    end_time := 3/10 }

/-- A completed flow with a single zero-length packet and zero duration. -/
def zeroFlow : CompletedFlow :=
  { flow_key := key1
    packets := [scenPkt 0 0]
    start_time := some 0
    end_time := 0 }

/-- The features extracted from `zeroFlow`. -/
def f9 : Features := ⟨0, 1, 0, 0, 0, 0, 0, 0, 0, 0⟩

/-- A predictor that was never loaded. -/
def stNotLoaded : PredictorState :=
  ⟨false, none, fun _ => Except.error "unused"⟩

/-- A loaded predictor whose classifier chain raises a shape mismatch. -/
def stShapeErr : PredictorState :=
  ⟨true, some ["flow_duration"], fun _ => Except.error "shape mismatch"⟩

theorem strLt_asymm : ∀ (a b : Addr), strLt a b → ¬ strLt b a
  | [], [], h => h.elim
  | [], _ :: _, _ => fun h2 => h2
  | _ :: _, [], h => h.elim
  | a :: as, b :: bs, h => by
    rintro (h2 | ⟨he2, hs2⟩)
    · rcases h with h | ⟨he, _⟩
      · exact absurd h2 (lt_asymm h)
      · exact absurd h2 (he ▸ lt_irrefl _)
    · rcases h with h | ⟨he, hs⟩
      · exact absurd h (he2 ▸ lt_irrefl _)
      · exact strLt_asymm as bs hs hs2

theorem strLt_total : ∀ (a b : Addr), ¬ strLt a b → ¬ strLt b a → a = b
  | [], [], _, _ => rfl
  | [], _ :: _, h1, _ => absurd trivial h1
  | _ :: _, [], _, h2 => absurd trivial h2
  | a :: as, b :: bs, h1, h2 => by
    rcases lt_trichotomy a b with h | h | h
    · exact absurd (Or.inl h) h1
    · subst h
      have hrest : as = bs :=
        strLt_total as bs (fun hs => h1 (Or.inr ⟨rfl, hs⟩))
          (fun hs => h2 (Or.inr ⟨rfl, hs⟩))
      rw [hrest]
    · exact absurd (Or.inl h) h2

theorem strLt_irrefl (a : Addr) : ¬ strLt a a :=
  fun h => strLt_asymm a a h h

theorem pairLt_asymm {a b : Addr × Nat} (h : pairLt a b) : ¬ pairLt b a := by
  rcases h with h | ⟨he, hp⟩
  · rintro (h2 | ⟨he2, _⟩)
    · exact absurd h2 (strLt_asymm _ _ h)
    · rw [he2] at h
      exact strLt_irrefl _ h
  · rintro (h2 | ⟨_, hp2⟩)
    · rw [he] at h2
      exact strLt_irrefl _ h2
    · exact absurd hp2 (lt_asymm hp)

theorem pairLt_total {a b : Addr × Nat} (h1 : ¬ pairLt a b)
    (h2 : ¬ pairLt b a) : a = b := by
  have hs : a.1 = b.1 :=
    strLt_total a.1 b.1 (fun h => h1 (Or.inl h)) (fun h => h2 (Or.inl h))
  rcases lt_trichotomy a.2 b.2 with hp | hp | hp
  · exact absurd (Or.inr ⟨hs, hp⟩) h1
  · exact Prod.ext hs hp
  · exact absurd (Or.inr ⟨hs.symm, hp⟩) h2

theorem mem_insertFlow {k : FlowKey} {fs : FlowState} :
    ∀ {l : List (FlowKey × FlowState)} {x : FlowKey × FlowState},
      x ∈ insertFlow k fs l → x = (k, fs) ∨ x ∈ l := by
  intro l
  induction l with
  | nil =>
    intro x hx
    simp [insertFlow] at hx
    exact Or.inl hx
  | cons hd tl ih =>
    intro x hx
    rw [insertFlow] at hx
    by_cases he : hd.1 = k
    · rw [if_pos he] at hx
      rcases List.mem_cons.mp hx with h | h
      · exact Or.inl h
      · exact Or.inr (List.mem_cons_of_mem _ h)
    · rw [if_neg he] at hx
      rcases List.mem_cons.mp hx with h | h
      · exact Or.inr (h ▸ List.mem_cons_self _ _)
      · rcases ih h with h2 | h2
        · exact Or.inl h2
        · exact Or.inr (List.mem_cons_of_mem _ h2)

theorem lookupFlow_mem {k : FlowKey} {v : FlowState} :
    ∀ {l : List (FlowKey × FlowState)}, lookupFlow k l = some v → (k, v) ∈ l := by
  intro l
  induction l with
  | nil => intro h; simp [lookupFlow] at h
  | cons hd tl ih =>
    intro h
    rw [lookupFlow] at h
    by_cases he : hd.1 = k
    · rw [if_pos he] at h
      cases h
      exact he ▸ List.mem_cons_self _ _
    · rw [if_neg he] at h
      exact List.mem_cons_of_mem _ (ih h)

theorem lookupFlow_filter_kept {k : FlowKey} {v : FlowState}
    (p : FlowKey × FlowState → Bool) :
    ∀ {l : List (FlowKey × FlowState)}, lookupFlow k l = some v →
      p (k, v) = true → lookupFlow k (l.filter p) = some v := by
  intro l
  induction l with
  | nil => intro h _; simp [lookupFlow] at h
  | cons hd tl ih =>
    intro h hp
    obtain ⟨k2, v2⟩ := hd
    rw [lookupFlow] at h
    by_cases he : k2 = k
    · rw [if_pos he] at h
      subst he
      cases h
      rw [List.filter_cons, if_pos hp, lookupFlow, if_pos rfl]
    · rw [if_neg he] at h
      rw [List.filter_cons]
      by_cases hphd : p (k2, v2) = true
      · rw [if_pos hphd, lookupFlow, if_neg he]
        exact ih h hp
      · rw [if_neg hphd]
        exact ih h hp

theorem lookupFlow_eq_none {k : FlowKey} :
    ∀ {l : List (FlowKey × FlowState)}, (∀ x ∈ l, x.1 ≠ k) →
      lookupFlow k l = none := by
  intro l
  induction l with
  | nil => intro _; rfl
  | cons hd tl ih =>
    intro h
    rw [lookupFlow, if_neg (h hd (List.mem_cons_self _ _))]
    exact ih fun x hx => h x (List.mem_cons_of_mem _ hx)

theorem lookupFlow_filter_removed {k : FlowKey} {v : FlowState}
    (p : FlowKey × FlowState → Bool) :
    ∀ {l : List (FlowKey × FlowState)}, (l.map Prod.fst).Nodup →
      lookupFlow k l = some v → p (k, v) = false →
      lookupFlow k (l.filter p) = none := by
  intro l
  induction l with
  | nil => intro _ h _; simp [lookupFlow] at h
  | cons hd tl ih =>
    intro hnd h hp
    rw [List.map_cons, List.nodup_cons] at hnd
    obtain ⟨k2, v2⟩ := hd
    rw [lookupFlow] at h
    by_cases he : k2 = k
    · rw [if_pos he] at h
      subst he
      cases h
      rw [List.filter_cons, if_neg (by rw [hp]; simp)]
      refine lookupFlow_eq_none ?_
      intro x hx hxk
      exact hnd.1 (List.mem_map.mpr ⟨x, List.mem_of_mem_filter hx, hxk⟩)
    · rw [if_neg he] at h
      rw [List.filter_cons]
      by_cases hphd : p (k2, v2) = true
      · rw [if_pos hphd, lookupFlow, if_neg he]
        exact ih hnd.2 h hp
      · rw [if_neg hphd]
        exact ih hnd.2 h hp

/-- Strengthened flow-table invariant carried through the reachability
relation: every live flow is non-empty and its timestamps are ordered and
bounded by the clock. -/
theorem reach_flow_state_strong {t : ℚ} {s : CaptureState} (h : Reach t s) :
    ∀ k fs, (k, fs) ∈ s.flow_table →
      fs.packets ≠ [] ∧ ∃ f l, fs.start_time = some f ∧ fs.last_seen = some l ∧
        f ≤ l ∧ l ≤ t := by
  induction h with
  | start t =>
    intro k fs hmem
    simp [emptyCaptureState] at hmem
  | record t2 pkt h hle ih =>
    intro k fs hmem
    rename_i tprev sprev
    cases hexk : extract_flow_key pkt with
    | none =>
      rw [process_packet, hexk] at hmem
      obtain ⟨h1, f, l, h2, h3, h4, h5⟩ := ih k fs hmem
      exact ⟨h1, f, l, h2, h3, h4, le_trans h5 hle⟩
    | some key =>
      rw [process_packet, hexk] at hmem
      simp only at hmem
      rcases mem_insertFlow hmem with heq | hold
      · have hk : k = key := congrArg Prod.fst heq
        have hfs := congrArg Prod.snd heq
        simp only at hfs
        subst hfs
        refine ⟨by simp, ?_⟩
        cases hl : lookupFlow key sprev.flow_table with
        | none =>
          refine ⟨t2, t2, ?_, rfl, le_refl t2, le_refl t2⟩
          simp [hl]
        | some fs0 =>
          obtain ⟨_, f0, l0, hs0, _, hf0, hl0⟩ := ih key fs0 (lookupFlow_mem hl)
          refine ⟨f0, t2, ?_, rfl, le_trans (le_trans hf0 hl0) hle, le_refl t2⟩
          simp [hl, hs0]
      · obtain ⟨h1, f, l, h2, h3, h4, h5⟩ := ih k fs hold
        exact ⟨h1, f, l, h2, h3, h4, le_trans h5 hle⟩
  | sweep t2 h hle ih =>
    intro k fs hmem
    rw [flow_timeout_sweep] at hmem
    simp only at hmem
    obtain ⟨h1, f, l, h2, h3, h4, h5⟩ := ih k fs (List.mem_of_mem_filter hmem)
    exact ⟨h1, f, l, h2, h3, h4, le_trans h5 hle⟩

/-- C8: in every capture state reachable through any sequence of packet
recordings and reaper sweeps, every `FlowState` present in the flow table
has a non-empty packet sequence and `last_seen ≥ first_seen`. -/
theorem reach_flow_table_invariant {t : ℚ} {s : CaptureState} (h : Reach t s) :
    ∀ k fs, (k, fs) ∈ s.flow_table →
      fs.packets ≠ [] ∧ ∃ f l, fs.start_time = some f ∧ fs.last_seen = some l ∧
        f ≤ l := by
  intro k fs hmem
  obtain ⟨h1, f, l, h2, h3, h4, _⟩ := reach_flow_state_strong h k fs hmem
  exact ⟨h1, f, l, h2, h3, h4⟩

/-- C8 witness: after recording one packet at time 1 into a fresh capture
state, the resulting flow state is non-empty with ordered timestamps. -/
theorem reach_flow_table_invariant_witness :
    ([pkt1] : List Packet) ≠ [] ∧
      ∃ f l, (some (1 : ℚ) = some f) ∧ (some (1 : ℚ) = some l) ∧ f ≤ l :=
  reach_flow_table_invariant
    (Reach.record 1 pkt1 (Reach.start 0) (by norm_num)) key1
    ⟨[pkt1], some 1, some 1⟩ (by decide)

/-- C6: a flow whose `last_seen` is `l` is still in the flow table, with its
state unchanged, after any sweep at a time `now` with
`now - l ≤ FLOW_TIMEOUT`; the first sweep with `now - l > FLOW_TIMEOUT`
removes it from the table and emits the corresponding completed flow. -/
theorem sweep_removes_exactly_on_timeout {now : ℚ} {s : CaptureState}
    {k : FlowKey} {fs : FlowState} {l : ℚ}
    (hnd : (s.flow_table.map Prod.fst).Nodup)
    (hlook : lookupFlow k s.flow_table = some fs)
    (hlast : fs.last_seen = some l) :
    (now - l ≤ FLOW_TIMEOUT →
        lookupFlow k (flow_timeout_sweep now s).flow_table = some fs) ∧
      (now - l > FLOW_TIMEOUT →
        lookupFlow k (flow_timeout_sweep now s).flow_table = none ∧
          completeFlow k fs ∈ sweep_completed now s.flow_table) := by
  have hto : flow_timed_out now fs = decide (now - l > FLOW_TIMEOUT) := by
    rw [flow_timed_out, hlast]
  constructor
  · intro hle
    have hfalse : flow_timed_out now fs = false := by
      rw [hto]
      exact decide_eq_false (not_lt.mpr hle)
    exact lookupFlow_filter_kept _ hlook (by simp [hfalse])
  · intro hgt
    have htrue : flow_timed_out now fs = true := by
      rw [hto]
      exact decide_eq_true hgt
    refine ⟨lookupFlow_filter_removed _ hnd hlook (by simp [htrue]), ?_⟩
    exact List.mem_map.mpr
      ⟨(k, fs), List.mem_filter.mpr ⟨lookupFlow_mem hlook, htrue⟩, rfl⟩

/-- C6 witness: the single flow of `capIdle`, last seen at time 0, is gone
from the table after the sweep at time 10 and appears among the completed
flows of that sweep. -/
theorem sweep_removes_exactly_on_timeout_witness :
    lookupFlow key1 (flow_timeout_sweep 10 capIdle).flow_table = none ∧
      completeFlow key1 fsIdle ∈ sweep_completed 10 capIdle.flow_table :=
  (sweep_removes_exactly_on_timeout (by simp [capIdle]) (l := 0)
      (by rfl) rfl).2 (by norm_num [FLOW_TIMEOUT])

/-- C10: a packet delivered to `_packet_callback` while the bounded packet
queue is full leaves the whole state — queue, flow table and
`total_packets_captured` — unchanged, with no drop counter anywhere; the
counter only advances when the packet actually enters the queue. -/
theorem packet_callback_counts_only_buffered (s : CaptureState) (pkt : Packet) :
    (PACKET_BUFFER_SIZE ≤ s.packet_queue.length → packet_callback pkt s = s) ∧
      ((packet_callback pkt s).total_packets_captured =
        if s.packet_queue.length < PACKET_BUFFER_SIZE then
          s.total_packets_captured + 1
        else s.total_packets_captured) ∧
      ((packet_callback pkt s).packet_queue =
        if s.packet_queue.length < PACKET_BUFFER_SIZE then
          s.packet_queue ++ [pkt]
        else s.packet_queue) ∧
      (packet_callback pkt s).flow_table = s.flow_table := by
  refine ⟨fun hfull => ?_, ?_, ?_, ?_⟩
  · rw [packet_callback, if_neg (not_lt.mpr hfull)]
  · by_cases h : s.packet_queue.length < PACKET_BUFFER_SIZE <;>
      simp [packet_callback, h]
  · by_cases h : s.packet_queue.length < PACKET_BUFFER_SIZE <;>
      simp [packet_callback, h]
  · by_cases h : s.packet_queue.length < PACKET_BUFFER_SIZE <;>
      simp [packet_callback, h]

/-- C10 witness: with the packet queue holding 1000 packets the callback is
the identity. -/
theorem packet_callback_counts_only_buffered_witness :
    packet_callback pkt1 csFull = csFull :=
  (packet_callback_counts_only_buffered csFull pkt1).1
    (by simp only [csFull, PACKET_BUFFER_SIZE, List.length_replicate]
        exact le_refl 1000)

/-- C4 counterexample: stopping capture while one flow is active (`capIdle`)
emits no CompletedFlow at all — the ready queue does not grow by N = 1 as
claimed. -/
theorem stop_capture_no_flush_cex :
    (stop_capture capIdle).flows_ready.length ≠
      capIdle.flows_ready.length + 1 := by
  simp [stop_capture, capIdle]

/-- C4 (amended): `stop_capture` performs no flush: the ready queue and the
flow table are unchanged — the N active flows simply remain in the table —
capture is marked stopped, and every later reaper iteration is a no-op, so
the set of completed flows grows by zero afterwards. -/
theorem stop_capture_leaves_flows (s : CaptureState) :
    (stop_capture s).flows_ready = s.flows_ready ∧
      (stop_capture s).flow_table = s.flow_table ∧
      (stop_capture s).is_capturing = false ∧
      ∀ now, reaper_iteration now (stop_capture s) = stop_capture s := by
  by_cases h : s.is_capturing <;>
    simp [stop_capture, reaper_iteration, h]

/-- C3 counterexample: at `cs3` the ready queue is full with the completed
flow `c0` at its front; the sweep at time 10 moves the newly timed-out flow
into the queue, silently evicting `c0`; the only counter
(`total_packets_captured`) is unchanged and the flow table retains
nothing — a completed flow is discarded with no counter recording it. -/
theorem ready_queue_full_silent_loss_cex :
    c0 ∈ cs3.flows_ready ∧
      (flow_timeout_sweep 10 cs3).flows_ready =
        List.replicate 999 c1v ++ [completeFlow key1 fsIdle] ∧
      c0 ∉ (flow_timeout_sweep 10 cs3).flows_ready ∧
      (flow_timeout_sweep 10 cs3).total_packets_captured =
        cs3.total_packets_captured ∧
      lookupFlow key1 (flow_timeout_sweep 10 cs3).flow_table = none := by
  have hto : flow_timed_out 10 fsIdle = true := by
    simp only [fsIdle, flow_timed_out, decide_eq_true_eq, FLOW_TIMEOUT]
    norm_num
  have hsweep : sweep_completed 10 cs3.flow_table = [completeFlow key1 fsIdle] := by
    show sweep_completed 10 [(key1, fsIdle)] = [completeFlow key1 fsIdle]
    simp [sweep_completed, hto]
  have hready : (flow_timeout_sweep 10 cs3).flows_ready =
      List.replicate 999 c1v ++ [completeFlow key1 fsIdle] := by
    show (sweep_completed 10 cs3.flow_table).foldl
        (dequeAppend FLOWS_READY_MAXLEN) cs3.flows_ready = _
    rw [hsweep]
    show dequeAppend FLOWS_READY_MAXLEN (c0 :: List.replicate 999 c1v)
        (completeFlow key1 fsIdle) = _
    rw [dequeAppend,
      if_neg (by rw [List.length_cons, List.length_replicate]; decide),
      List.tail_cons]
  refine ⟨List.mem_cons_self _ _, hready, ?_, rfl, ?_⟩
  · rw [hready]
    intro hmem
    rcases List.mem_append.mp hmem with h | h
    · exact (by decide : c0 ≠ c1v) (List.eq_of_mem_replicate h)
    · rw [List.mem_singleton] at h
      exact (by decide : c0 ≠ completeFlow key1 fsIdle) h
  · show lookupFlow key1
      ([(key1, fsIdle)].filter (fun kf => ! flow_timed_out 10 kf.2)) = none
    simp [List.filter_cons, hto, lookupFlow]

/-- C3 (amended): when the ready queue is full, a sweep completing one flow
still appends it to the queue and the queue's oldest entry is silently
evicted; `total_packets_captured` (the only counter the class keeps) is
unchanged, and no timed-out flow is held back in the table for a later
cycle. -/
theorem ready_queue_full_evicts_oldest (s : CaptureState) (now : ℚ)
    (c : CompletedFlow)
    (hfull : s.flows_ready.length = FLOWS_READY_MAXLEN)
    (hc : sweep_completed now s.flow_table = [c]) :
    (flow_timeout_sweep now s).flows_ready = s.flows_ready.tail ++ [c] ∧
      (flow_timeout_sweep now s).total_packets_captured =
        s.total_packets_captured ∧
      ∀ k fs, (k, fs) ∈ (flow_timeout_sweep now s).flow_table →
        flow_timed_out now fs = false := by
  refine ⟨?_, rfl, ?_⟩
  · show (sweep_completed now s.flow_table).foldl
        (dequeAppend FLOWS_READY_MAXLEN) s.flows_ready = _
    rw [hc]
    show dequeAppend FLOWS_READY_MAXLEN s.flows_ready c = _
    rw [dequeAppend, if_neg (by rw [hfull]; exact lt_irrefl _)]
  · intro k fs hmem
    have h := (List.mem_filter.mp hmem).2
    simpa using h

/-- C3 amended-claim witness: the behaviour at the concrete full-queue state
`cs3`. -/
theorem ready_queue_full_evicts_oldest_witness :
    (flow_timeout_sweep 10 cs3).flows_ready =
        cs3.flows_ready.tail ++ [completeFlow key1 fsIdle] ∧
      (flow_timeout_sweep 10 cs3).total_packets_captured =
        cs3.total_packets_captured ∧
      ∀ k fs, (k, fs) ∈ (flow_timeout_sweep 10 cs3).flow_table →
        flow_timed_out 10 fs = false :=
  ready_queue_full_evicts_oldest cs3 10 (completeFlow key1 fsIdle)
    (by
      show (c0 :: List.replicate 999 c1v).length = FLOWS_READY_MAXLEN
      rw [List.length_cons, List.length_replicate]
      rfl)
    (by
      have hto : flow_timed_out 10 fsIdle = true := by
        simp only [fsIdle, flow_timed_out, decide_eq_true_eq, FLOW_TIMEOUT]
        norm_num
      show sweep_completed 10 [(key1, fsIdle)] = [completeFlow key1 fsIdle]
      simp [sweep_completed, hto])

/-- C2 (code bug): on the end-to-end scenario flow — three packets from
10.0.0.1:1000 to 10.0.0.2:80/TCP, `start_time = 0.0`, `end_time = 0.3` —
the extractor does report 3 forward and 0 backward packets, but
`flow_duration` comes out as 0 rather than the 300000 microseconds the
specification states, because the guard `if flow_data['start_time']` treats
the start time `0.0` as missing. -/
theorem extract_scenario_flow_duration_zero :
    (extract_features_from_flow scenFlow).map Features.total_fwd_packets =
        some 3 ∧
      (extract_features_from_flow scenFlow).map Features.total_bwd_packets =
        some 0 ∧
      (extract_features_from_flow scenFlow).map Features.flow_duration =
        some 0 := by
  refine ⟨?_, ?_, ?_⟩ <;>
    simp [scenFlow, extract_features_from_flow, separate_directions,
      durationOf, scenPkt]

/-- C9: for every successfully extracted feature record, a non-positive flow
duration forces all four rate fields to 0, and zero forward bytes force the
backward/forward byte quotient to 0 — the division branches are taken only
with strictly positive divisors. -/
theorem rate_fields_guarded {fd : CompletedFlow} {f : Features}
    (hx : extract_features_from_flow fd = some f) :
    (f.flow_duration ≤ 0 →
        f.flow_bytes_per_sec = 0 ∧ f.flow_packets_per_sec = 0 ∧
          f.fwd_packets_per_sec = 0 ∧ f.bwd_packets_per_sec = 0) ∧
      (f.total_length_fwd_packets = 0 → f.down_up_quot = 0) := by
  simp only [extract_features_from_flow] at hx
  by_cases hp : fd.packets = []
  · rw [if_pos hp] at hx
    cases hx
  · rw [if_neg hp, Option.some.injEq] at hx
    subst hx
    constructor
    · intro hd
      simp only at hd ⊢
      have hnd : ¬ (durationOf fd.start_time fd.end_time > 0) := by
        intro hpos
        have hmul : (0 : ℚ) < durationOf fd.start_time fd.end_time * 1000000 :=
          mul_pos hpos (by norm_num)
        linarith
      simp [if_neg hnd]
    · intro h0
      simp only at h0 ⊢
      simp [h0]

/-- C9 witness: a flow with a single zero-length packet and zero duration
gets all rate fields and the byte quotient equal to 0. -/
theorem rate_fields_guarded_witness :
    (f9.flow_bytes_per_sec = 0 ∧ f9.flow_packets_per_sec = 0 ∧
        f9.fwd_packets_per_sec = 0 ∧ f9.bwd_packets_per_sec = 0) ∧
      f9.down_up_quot = 0 := by
  have hx : extract_features_from_flow zeroFlow = some f9 := by
    simp [zeroFlow, extract_features_from_flow, separate_directions,
      durationOf, scenPkt, f9]
  exact ⟨(rate_fields_guarded hx).1 (by norm_num [f9]),
    (rate_fields_guarded hx).2 (by norm_num [f9])⟩

theorem lookup_append_single :
    ∀ (l : List (String × ℚ)) (g f : String) (v : ℚ),
      (l ++ [(f, v)]).lookup g =
        match l.lookup g with
        | some w => some w
        | none => if g == f then some v else none := by
  intro l
  induction l with
  | nil =>
    intro g f v
    cases hgf : g == f <;> simp [List.lookup, hgf]
  | cons hd tl ih =>
    intro g f v
    obtain ⟨k2, v2⟩ := hd
    rw [List.cons_append, List.lookup, List.lookup]
    cases hgk : g == k2 with
    | true => rfl
    | false => exact ih g f v

theorem lookup_padColumns_not_mem :
    ∀ (expected : List String) (cols : List (String × ℚ)) (g : String),
      g ∉ expected → (padColumns expected cols).lookup g = cols.lookup g := by
  intro expected
  induction expected with
  | nil => intro cols g _; rfl
  | cons f rest ih =>
    intro cols g hg
    rw [List.mem_cons, not_or] at hg
    rw [padColumns, List.foldl_cons]
    by_cases hf : ((cols.lookup f).isSome : Prop)
    · rw [if_pos hf]
      exact ih cols g hg.2
    · rw [if_neg hf]
      rw [show List.foldl _ (cols ++ [(f, 0)]) rest =
            padColumns rest (cols ++ [(f, 0)]) from rfl]
      rw [ih (cols ++ [(f, 0)]) g hg.2, lookup_append_single]
      cases hc : cols.lookup g with
      | some w => rfl
      | none =>
        simp only
        rw [if_neg (by simpa using hg.1)]

theorem lookup_padColumns_mem :
    ∀ (expected : List String) (cols : List (String × ℚ)) (g : String),
      g ∈ expected →
        (padColumns expected cols).lookup g = some ((cols.lookup g).getD 0) := by
  intro expected
  induction expected with
  | nil => intro cols g hg; cases hg
  | cons f rest ih =>
    intro cols g hg
    rw [padColumns, List.foldl_cons]
    by_cases hgr : g ∈ rest
    · by_cases hf : ((cols.lookup f).isSome : Prop)
      · rw [if_pos hf]
        exact ih cols g hgr
      · rw [if_neg hf]
        rw [show List.foldl _ (cols ++ [(f, 0)]) rest =
              padColumns rest (cols ++ [(f, 0)]) from rfl]
        rw [ih (cols ++ [(f, 0)]) g hgr, lookup_append_single]
        cases hc : cols.lookup g with
        | some w => rfl
        | none =>
          simp only [Option.getD_none]
          by_cases hgf : g == f
          · rw [if_pos hgf]
            rfl
          · rw [if_neg (by simpa using (by simpa using hgf : ¬ g = f))]
            rfl
    · have hgf : g = f := by
        rcases List.mem_cons.mp hg with h | h
        · exact h
        · exact absurd h hgr
      subst hgf
      by_cases hf : ((cols.lookup g).isSome : Prop)
      · rw [if_pos hf]
        rw [show List.foldl _ cols rest = padColumns rest cols from rfl]
        rw [lookup_padColumns_not_mem rest cols g hgr]
        obtain ⟨w, hw⟩ := Option.isSome_iff_exists.mp hf
        rw [hw]
        rfl
      · rw [if_neg hf]
        rw [show List.foldl _ (cols ++ [(g, 0)]) rest =
              padColumns rest (cols ++ [(g, 0)]) from rfl]
        rw [lookup_padColumns_not_mem rest (cols ++ [(g, 0)]) g hgr,
          lookup_append_single]
        rw [Option.not_isSome_iff_eq_none.mp hf]
        simp

/-- C7: for every classifier schema, `predict_flow` pads every absent schema
field with 0 and reorders the columns into the schema's declared order —
position `i` of the resulting row holds the feature named by schema entry
`i`, or 0 when that feature is absent; in particular schema `[a, b, c]`
applied to `{a ↦ 1, c ↦ 2}` yields the row `[1, 0, 2]`. -/
theorem predict_pads_and_reorders (expected : List String)
    (cols : List (String × ℚ)) :
    reorderColumns expected (padColumns expected cols) =
        expected.map (fun f => some ((cols.lookup f).getD 0)) ∧
      reorderColumns ["a", "b", "c"]
          (padColumns ["a", "b", "c"] [("a", 1), ("c", 2)]) =
        [some 1, some 0, some 2] := by
  constructor
  · rw [reorderColumns]
    exact List.map_congr_left fun g hg => lookup_padColumns_mem expected cols g hg
  · simp [padColumns, reorderColumns, List.lookup]

/-- C5 counterexample: calling `predict_flow` on a predictor whose artifact
is not loaded raises (the `ValueError` sits before the `try` block) instead
of returning an error-tagged DetectionResult. -/
theorem predict_flow_not_loaded_raises_cex :
    predict_flow stNotLoaded [] none =
      Except.error
        "Model not loaded. Call load_model_and_transformers() first." := rfl

/-- C5 (amended): with the artifact loaded, `predict_flow` never raises, and
a failure of the classifier chain (e.g. a shape mismatch) is returned as an
error-tagged result; with the artifact not loaded it raises instead of
returning a result, but the worker's per-flow `try`/`except` confines any
failure to its own flow, so one flow's failure never aborts the batch or
affects the results of other flows. -/
theorem predict_flow_error_handling (st : PredictorState) :
    (st.is_loaded = false → ∀ cols fk, predict_flow st cols fk =
        Except.error
          "Model not loaded. Call load_model_and_transformers() first.") ∧
      (st.is_loaded = true →
        ∀ cols fk, ∃ r, predict_flow st cols fk = Except.ok r) ∧
      (st.is_loaded = true → ∀ cols fk e,
        st.classify ((columnsFor st.feature_names_in cols).map
            (fun x => x.getD 0)) = Except.error e →
          predict_flow st cols fk = Except.ok
            { result_key := fk, attack_type := "Error", attack_class_id := none
              confidence := 0, error := some e, is_attack := none }) ∧
      (∀ flows1 flows2, prediction_worker_batch st (flows1 ++ flows2) =
        prediction_worker_batch st flows1 ++ prediction_worker_batch st flows2) := by
  refine ⟨?_, ?_, ?_, ?_⟩
  · intro h cols fk
    rw [predict_flow, if_pos h]
  · intro h cols fk
    rw [predict_flow, if_neg (by simp [h])]
    exact ⟨_, rfl⟩
  · intro h cols fk e hc
    rw [predict_flow, if_neg (by simp [h]), hc]
    rfl
  · intro flows1 flows2
    simp only [prediction_worker_batch]
    exact List.filterMap_append _ _ _

/-- C5 amended-claim witness: a loaded predictor whose classifier raises a
shape mismatch returns the error-tagged result. -/
theorem predict_flow_error_handling_witness :
    predict_flow stShapeErr [("flow_duration", 1)] none =
      Except.ok
        { result_key := none, attack_type := "Error", attack_class_id := none
          confidence := 0, error := some "shape mismatch", is_attack := none } :=
  (predict_flow_error_handling stShapeErr).2.2.1 rfl [("flow_duration", 1)]
    none "shape mismatch" rfl

/-- C1: for two packets that are mirror images of each other (same protocol,
source address/port of one equal to destination address/port of the other
and vice versa), `_extract_flow_key` returns the same flow key, and any key
it returns has the lexicographically smaller (address, port) pair first, so
opposite-direction packets accumulate into a single flow. -/
theorem extract_flow_key_direction_independent (p1 p2 : Packet)
    (h1 : p1.hasIP = true) (h2 : p2.hasIP = true)
    (hproto : p2.proto = p1.proto)
    (ha : p2.ipSrc = p1.ipDst) (hb : p2.ipDst = p1.ipSrc)
    (hpa : src_port p2 = dst_port p1) (hpb : dst_port p2 = src_port p1) :
    extract_flow_key p1 = extract_flow_key p2 ∧
      ∀ k, extract_flow_key p1 = some k →
        pairLe (k.ipA, k.portA) (k.ipB, k.portB) := by
  unfold extract_flow_key
  rw [h1, h2, ha, hb, hpa, hpb, hproto]
  simp only [if_true]
  by_cases hlt : pairLt (p1.ipSrc, src_port p1) (p1.ipDst, dst_port p1)
  · rw [if_pos hlt, if_neg (pairLt_asymm hlt)]
    refine ⟨rfl, ?_⟩
    rintro k hk
    cases hk
    exact Or.inl hlt
  · rw [if_neg hlt]
    by_cases hlt2 : pairLt (p1.ipDst, dst_port p1) (p1.ipSrc, src_port p1)
    · rw [if_pos hlt2]
      refine ⟨rfl, ?_⟩
      rintro k hk
      cases hk
      exact Or.inl hlt2
    · rw [if_neg hlt2]
      have heq := pairLt_total hlt hlt2
      have hip : p1.ipSrc = p1.ipDst := congrArg Prod.fst heq
      have hpt : src_port p1 = dst_port p1 := congrArg Prod.snd heq
      refine ⟨by rw [hip, hpt], ?_⟩
      rintro k hk
      cases hk
      exact Or.inr (by rw [hip, hpt])

/-- C1 witness: concrete mirrored TCP packets between 10.0.0.1:1000 and
10.0.0.2:80 get the same flow key. -/
theorem extract_flow_key_direction_independent_witness :
    extract_flow_key
        ⟨true, "10.0.0.1".toList, "10.0.0.2".toList, 6, true, false,
          1000, 80, 0, 0, 0, 100⟩ =
      extract_flow_key
        ⟨true, "10.0.0.2".toList, "10.0.0.1".toList, 6, true, false,
          80, 1000, 0, 0, 0, 60⟩ :=
  (extract_flow_key_direction_independent
    ⟨true, "10.0.0.1".toList, "10.0.0.2".toList, 6, true, false,
      1000, 80, 0, 0, 0, 100⟩
    ⟨true, "10.0.0.2".toList, "10.0.0.1".toList, 6, true, false,
      80, 1000, 0, 0, 0, 60⟩
    rfl rfl rfl rfl rfl rfl rfl).1

end MVIds
